import Mathlib

/-!
Shallow embedding of the change-analysis and artifact-generation pipeline
(`src/tools.ts`): commit-message generation (`generateCommitMessage`),
markdown review persistence (`writeMarkdownReview`) and commit-history
retrieval (`getGitHistory`), together with proofs of the specification's
claims about them.

JavaScript string primitives used by the source (`String.prototype.split`,
`Array.prototype.join`, `String.prototype.includes`, the multiline regex
anchors of `/^\+/gm`, and UTF-16 `String.prototype.length`) are modelled
explicitly over `List Char`.
-/

namespace CodeReviewAgent

/-- The line terminators recognised by a JavaScript multiline regex anchor
(`^` matches at the start of input and after LF, CR, LS, PS). -/
def isLineTerminator (c : Char) : Bool :=
  c = '\n' || c = '\r' || c = Char.ofNat 0x2028 || c = Char.ofNat 0x2029

/-- Split a character list at every character satisfying `p`; the separator
characters are dropped.  Models `String.prototype.split` with a one-character
separator (`p := (· = sep)`), and also yields the lines seen by a multiline
regex anchor (`p := isLineTerminator`).  The result is never empty:
`splitOnPred p [] = [[]]`, matching `"".split(sep) == [""]` in JavaScript. -/
def splitOnPred (p : Char → Bool) : List Char → List (List Char)
  | [] => [[]]
  | c :: rest =>
    let r := splitOnPred p rest
    if p c then [] :: r
    else (c :: r.headD []) :: r.tail

/-- Counter for the JavaScript regex `/^<marker>/gm`: the number of
line-start positions holding `marker`.  The boolean flag records whether the
current position is a line start. -/
def countLineStartsAux (marker : Char) : Bool → List Char → Nat
  | _, [] => 0
  | atStart, c :: rest =>
    (if atStart && (c = marker) then 1 else 0) +
      countLineStartsAux marker (isLineTerminator c) rest

/-- `diff.match(/^\+/gm)?.length || 0` from the source, for an arbitrary
marker character. -/
def regexCountLineStart (marker : Char) (s : String) : Nat :=
  countLineStartsAux marker true s.data

/-- `pat` occurs as a contiguous substring of `s`; models
`String.prototype.includes` at the character-list level. -/
def listContains (pat : List Char) : List Char → Bool
  | [] => pat.isEmpty
  | c :: rest => pat.isPrefixOf (c :: rest) || listContains pat rest

/-- `s.includes(pat)` from JavaScript. -/
def includesStr (s pat : String) : Bool :=
  listContains pat.data s.data

/-- `Array.prototype.join` with separator `sep`. -/
def jsJoin (sep : List Char) : List (List Char) → List Char
  | [] => []
  | [x] => x
  | x :: y :: xs => x ++ sep ++ jsJoin sep (y :: xs)

/-- The UTF-16 code-unit count of a string: JavaScript's
`String.prototype.length`. -/
def jsLength (s : String) : Nat :=
  (s.data.map (fun c => if c.toNat < 0x10000 then 1 else 2)).sum

/-- The conventional-commit categories admitted by the tool's input schema
(`z.enum(["feat","fix","docs","style","refactor","test","chore"])`). -/
inductive CommitType where
  | feat | fix | docs | style | refactor | test | chore
deriving DecidableEq, Repr

/-- The string form of a category, as interpolated into the message. -/
def typeName : CommitType → String
  | .feat => "feat"
  | .fix => "fix"
  | .docs => "docs"
  | .style => "style"
  | .refactor => "refactor"
  | .test => "test"
  | .chore => "chore"

/-- One changed file together with its unified-diff text
(the `{file, diff}` objects of the commit-message input schema). -/
structure FileChange where
  file : String
  diff : String
deriving DecidableEq, Repr

/-- `hasNewFeatures` from `generateCommitMessage`:
`change.diff.includes("+ ") && (change.diff.includes("function") ||
change.diff.includes("class") || change.diff.includes("export"))`
over some change. -/
def hasNewFeatures (changes : List FileChange) : Bool :=
  changes.any fun change =>
    includesStr change.diff "+ " &&
      (includesStr change.diff "function" || includesStr change.diff "class" ||
        includesStr change.diff "export")

/-- `hasBugFixes` from `generateCommitMessage`. -/
def hasBugFixes (changes : List FileChange) : Bool :=
  changes.any fun change =>
    includesStr change.diff "fix" || includesStr change.diff "bug" ||
      includesStr change.diff "error"

/-- `hasDocChanges` from `generateCommitMessage`. -/
def hasDocChanges (changes : List FileChange) : Bool :=
  changes.any fun change =>
    includesStr change.file "README" || includesStr change.file ".md" ||
      includesStr change.diff "@param" || includesStr change.diff "@returns"

/-- `hasTestChanges` from `generateCommitMessage`. -/
def hasTestChanges (changes : List FileChange) : Bool :=
  changes.any fun change =>
    includesStr change.file "test" || includesStr change.file "spec"

/-- The category-derivation step of `generateCommitMessage`: keep the
caller-supplied `type` when present, otherwise run the if/else-if chain over
the four heuristic predicates with `chore` as the fallback. -/
def suggestedTypeOf (changes : List FileChange) (type : Option CommitType) :
    CommitType :=
  match type with
  | some t => t
  | none =>
    if hasNewFeatures changes then .feat
    else if hasBugFixes changes then .fix
    else if hasDocChanges changes then .docs
    else if hasTestChanges changes then .test
    else .chore

/-- `changes.map((change) => change.file).join(", ")`. -/
def fileNamesOf (changes : List FileChange) : String :=
  ⟨jsJoin ", ".data (changes.map (fun change => change.file.data))⟩

/-- The `scope` expression of `generateCommitMessage`:
`changes.length === 1 ? changes[0].file.split("/").pop()?.split(".")[0]
 : changes.length > 3 ? "multiple"
 : fileNames.split(",").length > 1 ? "files" : ""`. -/
def scopeOf (changes : List FileChange) : String :=
  if changes.length = 1 then
    ⟨(splitOnPred (fun c => c = '.')
        ((splitOnPred (fun c => c = '/')
          (changes.headD ⟨"", ""⟩).file.data).getLastD [])).headD []⟩
  else if changes.length > 3 then "multiple"
  else if 1 < (splitOnPred (fun c => c = ',') (fileNamesOf changes).data).length
    then "files"
  else ""

/-- `const scopeText = scope ? `(${scope})` : ""` — the empty string is the
only falsy value `scope` can take here. -/
def scopeTextOf (changes : List FileChange) : String :=
  if scopeOf changes = "" then "" else "(" ++ scopeOf changes ++ ")"

/-- The `description` if/else chain of `generateCommitMessage`; every
category not matched by a branch falls through to `"update code"`. -/
def descriptionFor : CommitType → String
  | .feat => "add new functionality"
  | .fix => "resolve issues"
  | .docs => "update documentation"
  | .refactor => "improve code structure"
  | .test => "add/update tests"
  | _ => "update code"

/-- The first line of the commit message:
`${suggestedType}${scopeText}: ${description}`. -/
def headerOf (changes : List FileChange) (type : Option CommitType) : String :=
  typeName (suggestedTypeOf changes type) ++ scopeTextOf changes ++ ": " ++
    descriptionFor (suggestedTypeOf changes type)

/-- `changes.reduce((sum, change) => sum + (change.diff.match(/^\+/gm)?.length || 0), 0)`
for an arbitrary marker. -/
def totalLineCount (marker : Char) (changes : List FileChange) : Nat :=
  (changes.map (fun change => regexCountLineStart marker change.diff)).sum

/-- The three bullet lines of the commit message, including the leading
blank line that separates them from the header. -/
def bulletsOf (changes : List FileChange) : String :=
  "\n\n- Modified " ++ toString changes.length ++ " file" ++
    (if changes.length > 1 then "s" else "") ++
    "\n- Added " ++ toString (totalLineCount '+' changes) ++
    " lines, removed " ++ toString (totalLineCount '-' changes) ++
    " lines\n- Files: " ++ fileNamesOf changes

/-- The `stats` object of the commit-message result. -/
structure Stats where
  addedLines : Nat
  removedLines : Nat
  filesChanged : Nat
deriving DecidableEq, Repr

/-- The value returned by `generateCommitMessage`. -/
structure CommitResult where
  message : String
  type : CommitType
  stats : Stats
deriving DecidableEq, Repr

/-- `generateCommitMessage` from `src/tools.ts`, assembled from the pieces
above exactly as the source assembles them. -/
def generateCommitMessage (changes : List FileChange)
    (type : Option CommitType) : CommitResult :=
  { message := headerOf changes type ++ bulletsOf changes
    type := suggestedTypeOf changes type
    stats :=
      { addedLines := totalLineCount '+' changes
        removedLines := totalLineCount '-' changes
        filesChanged := changes.length } }

/-- `# ${title}\n\n${content}` when a title is supplied, else the content
alone: the `markdownContent` expression of `writeMarkdownReview`. -/
def markdownContentOf (title : Option String) (content : String) : String :=
  match title with
  | some t => "# " ++ t ++ "\n\n" ++ content
  | none => content

/-- The `fullContent` template of `writeMarkdownReview`: metadata block,
then the (possibly title-prefixed) body, then a final newline. -/
def fullContentOf (timestamp : String) (title : Option String)
    (content : String) : String :=
  "---\ngenerated: " ++ timestamp ++ "\ntype: code-review\n---\n\n" ++
    markdownContentOf title content ++ "\n"

/-- The object returned by `writeMarkdownReview`; optional fields model the
keys absent from the corresponding JavaScript object literal. -/
structure WriteResult where
  success : Bool
  filePath : String
  size : Option Nat := none
  message : Option String := none
  error : Option String := none
deriving DecidableEq, Repr

/-- `writeMarkdownReview` from `src/tools.ts`.  The filesystem is an
association list from paths to file contents, newest entry first, so a
write shadows (overwrites) earlier writes to the same path.  The filesystem
primitives (`mkdir`, `writeFile`) may throw; `fsError` is the environment's
choice: `none` for success, `some (some m)` for a thrown `Error` with
message `m`, and `some none` for a thrown non-`Error` value.  The `try`
block catches every throw and returns the structured failure object. -/
def writeMarkdownReview (fs : List (String × String)) (filePath : String)
    (content : String) (title : Option String) (timestamp : String)
    (fsError : Option (Option String)) :
    List (String × String) × WriteResult :=
  match fsError with
  | some e =>
    (fs, { success := false, filePath := filePath
           error := some (e.getD "Unknown error occurred") })
  | none =>
    let fullContent := fullContentOf timestamp title content
    ((filePath, fullContent) :: fs,
     { success := true, filePath := filePath
       size := some (jsLength fullContent)
       message := some ("Successfully wrote " ++
         toString (jsLength fullContent) ++ " characters to " ++ filePath) })

/-- One entry of `log.all` as reported by the VCS client. -/
structure RawCommit where
  hash : String
  date : String
  message : String
  author_name : String
  author_email : String
deriving DecidableEq, Repr

/-- One commit record as returned by `getGitHistory`. -/
structure Commit where
  hash : String
  date : String
  message : String
  author : String
  email : String
deriving DecidableEq, Repr

/-- The object returned by `getGitHistory`; `error := none` models an
absent `error` key. -/
structure HistoryResult where
  commits : List Commit
  error : Option String := none
deriving DecidableEq, Repr

/-- `getGitHistory` from `src/tools.ts`.  The VCS response to
`git.log({maxCount})` for the requested directory is the environment's
choice, modelled by `logResult`: `Except.ok` carries the reported commits,
`Except.error (some m)` a thrown `Error` with message `m`, and
`Except.error none` a thrown non-`Error` value. -/
def getGitHistory (logResult : Except (Option String) (List RawCommit)) :
    HistoryResult :=
  match logResult with
  | .ok all =>
    { commits := all.map (fun c =>
        { hash := c.hash, date := c.date, message := c.message
          author := c.author_name, email := c.author_email }) }
  | .error e =>
    { commits := [], error := some (e.getD "Failed to get git history") }

/-! ### Specification-side reference definitions

The definitions below transcribe the specification's own wording, to be
compared with the code embedding above. -/

/-- The lines of a string as delimited by JavaScript line terminators. -/
def jsLinesOf (s : String) : List (List Char) :=
  splitOnPred isLineTerminator s.data

/-- First-match evaluation of an ordered list of predicate/category pairs
with fallback `chore` — the spec's description of the heuristic chain. -/
def firstMatch : List (Bool × CommitType) → CommitType
  | [] => .chore
  | (b, t) :: rest => if b then t else firstMatch rest

/-- `classify` as the specification words it: a supplied hint is returned
unchanged; otherwise the four predicates are tried in fixed priority order
and the first match wins, with `chore` as the default. -/
def classifySpec (changes : List FileChange) (hint : Option CommitType) :
    CommitType :=
  match hint with
  | some h => h
  | none => firstMatch
      [(hasNewFeatures changes, .feat), (hasBugFixes changes, .fix),
       (hasDocChanges changes, .docs), (hasTestChanges changes, .test)]

/-- The spec's `feat` predicate: some diff has an added line (a line
beginning with the addition marker) whose own content mentions a function,
class, or export declaration keyword. -/
def specFeat (changes : List FileChange) : Bool :=
  changes.any fun change =>
    (jsLinesOf change.diff).any fun l =>
      (l.head? == some '+') &&
        (listContains "function".data l || listContains "class".data l ||
          listContains "export".data l)

/-- Total count, across all diffs, of lines beginning with `marker` —
header lines included (the behaviour the code actually has). -/
def specLineCountAll (marker : Char) (changes : List FileChange) : Nat :=
  (changes.map (fun change =>
    ((jsLinesOf change.diff).filter (fun l => l.head? == some marker)).length)).sum

/-- Total count, across all diffs, of lines beginning with a single
`marker`, excluding diff header lines that begin with the marker doubled —
the count the specification describes. -/
def specLineCountExclHeaders (marker : Char) (changes : List FileChange) : Nat :=
  (changes.map (fun change =>
    ((jsLinesOf change.diff).filter (fun l =>
      (l.head? == some marker) && !([marker, marker].isPrefixOf l))).length)).sum

/-- The scope as the specification words it: one file → its base name up to
the first period of the final path segment; more than three files →
`"multiple"`; more than one distinct file name → `"files"`; else empty. -/
def specScopeOf (changes : List FileChange) : String :=
  if changes.length = 1 then
    ⟨((splitOnPred (fun c => c = '/')
        (changes.headD ⟨"", ""⟩).file.data).getLastD []).takeWhile
          (fun c => !(c = '.'))⟩
  else if changes.length > 3 then "multiple"
  else if 1 < ((changes.map (fun change => change.file)).dedup).length then
    "files"
  else ""

/-- The prefix a reader strips from a persisted review artifact: the
metadata header block followed by the title heading when one was given. -/
def headerAndTitleBlock (timestamp : String) (title : Option String) : String :=
  "---\ngenerated: " ++ timestamp ++ "\ntype: code-review\n---\n\n" ++
    (match title with | some t => "# " ++ t ++ "\n\n" | none => "")

/-- The body a reader recovers from a persisted review artifact by
stripping the metadata header and the title heading. -/
def strippedBody (timestamp : String) (title : Option String) (s : String) :
    String :=
  ⟨s.data.drop (headerAndTitleBlock timestamp title).data.length⟩

/-! ### Helper lemmas -/

theorem splitOnPred_ne_nil (p : Char → Bool) (s : List Char) :
    splitOnPred p s ≠ [] := by
  cases s with
  | nil => simp [splitOnPred]
  | cons c rest =>
    simp only [splitOnPred]
    split <;> simp

theorem countLineStarts_spec (m : Char) (hm : isLineTerminator m = false)
    (s : List Char) :
    countLineStartsAux m true s =
        (splitOnPred isLineTerminator s).countP (fun l => l.head? == some m) ∧
      countLineStartsAux m false s =
        ((splitOnPred isLineTerminator s).tail).countP
          (fun l => l.head? == some m) := by
  induction s with
  | nil => simp [countLineStartsAux, splitOnPred]
  | cons c rest ih =>
    obtain ⟨ih1, ih2⟩ := ih
    by_cases hc : isLineTerminator c = true
    · have hcm : ¬(c = m) := by
        intro h
        subst h
        rw [hm] at hc
        cases hc
      constructor
      · simp [countLineStartsAux, splitOnPred, hc, hcm, ih1, List.countP_cons]
      · simp [countLineStartsAux, splitOnPred, hc, hcm, ih1, List.countP_cons]
    · have hc' : isLineTerminator c = false := by
        simpa using hc
      obtain ⟨rh, rt, hr⟩ :
          ∃ rh rt, splitOnPred isLineTerminator rest = rh :: rt := by
        cases h : splitOnPred isLineTerminator rest with
        | nil => exact absurd h (splitOnPred_ne_nil _ _)
        | cons rh rt => exact ⟨rh, rt, rfl⟩
      rw [hr] at ih1 ih2
      constructor
      · simp [countLineStartsAux, splitOnPred, hc', hr, ih2, List.countP_cons]
        by_cases hcm : c = m <;> simp [hcm, Nat.add_comm]
      · simp [countLineStartsAux, splitOnPred, hc', hr, ih2, List.countP_cons]

theorem regexCountLineStart_eq (m : Char) (hm : isLineTerminator m = false)
    (s : String) :
    regexCountLineStart m s =
      ((jsLinesOf s).filter (fun l => l.head? == some m)).length := by
  rw [regexCountLineStart, (countLineStarts_spec m hm s.data).1,
    List.countP_eq_length_filter]
  rfl

theorem headD_splitOnPred (p : Char → Bool) (s : List Char) :
    (splitOnPred p s).headD [] = s.takeWhile (fun c => !(p c)) := by
  induction s with
  | nil => simp [splitOnPred]
  | cons c rest ih =>
    by_cases hc : p c = true
    · simp [splitOnPred, hc, List.takeWhile]
    · have hc' : p c = false := by simpa using hc
      rw [List.headD_eq_head?_getD] at ih
      simp [splitOnPred, hc', List.takeWhile, ih]

theorem one_lt_length_splitOnPred (p : Char → Bool) (s : List Char) (c : Char)
    (hmem : c ∈ s) (hp : p c = true) :
    1 < (splitOnPred p s).length := by
  induction s with
  | nil => cases hmem
  | cons a rest ih =>
    by_cases ha : p a = true
    · have : 0 < (splitOnPred p rest).length :=
        List.length_pos.mpr (splitOnPred_ne_nil _ _)
      simp only [splitOnPred, ha, if_true, List.length_cons]
      omega
    · have ha' : p a = false := by simpa using ha
      have hcr : c ∈ rest := by
        rcases List.mem_cons.mp hmem with h | h
        · subst h
          rw [hp] at ha'
          cases ha'
        · exact h
      have h1 := ih hcr
      obtain ⟨rh, rt, hr⟩ :
          ∃ rh rt, splitOnPred p rest = rh :: rt := by
        cases h : splitOnPred p rest with
        | nil => exact absurd h (splitOnPred_ne_nil _ _)
        | cons rh rt => exact ⟨rh, rt, rfl⟩
      rw [hr] at h1
      simp only [splitOnPred, ha', if_false, hr, List.length_cons] at h1 ⊢
      simpa using h1

theorem jsLength_append (a b : String) :
    jsLength (a ++ b) = jsLength a + jsLength b := by
  simp [jsLength, String.data_append]

/-! ### Claim theorems -/

/-- Claim C1, as stated, is false: the line-count regex `/^\+/gm` also
matches diff header lines such as `+++ b/f.ts`, so header lines beginning
with two or more markers are NOT excluded.  On the single-file ChangeSet
with diff `"+++ b/f.ts\n+x"` the code reports 2 added lines while the
claimed count (headers excluded) is 1. -/
theorem c1_stats_counterexample :
    (generateCommitMessage [⟨"f.ts", "+++ b/f.ts\n+x"⟩] none).stats.addedLines
        = 2 ∧
      specLineCountExclHeaders '+' [⟨"f.ts", "+++ b/f.ts\n+x"⟩] = 1 ∧
      (generateCommitMessage [⟨"f.ts", "+++ b/f.ts\n+x"⟩] none).stats.addedLines
        ≠ specLineCountExclHeaders '+' [⟨"f.ts", "+++ b/f.ts\n+x"⟩] :=
  ⟨by decide, by decide, by decide⟩

/-- Claim C1 (amended): for every ChangeSet, `added` equals the total count
of lines across all diffs beginning with the addition marker `'+'` —
including diff header lines beginning with `'++'`/`'+++'` — `removed` is the
analogous count for `'-'`, and `filesChanged` equals the number of entries
in the ChangeSet.  All three are values of `Nat`, hence non-negative. -/
theorem c1_stats_amended (changes : List FileChange)
    (type : Option CommitType) :
    (generateCommitMessage changes type).stats.filesChanged = changes.length ∧
      (generateCommitMessage changes type).stats.addedLines =
        specLineCountAll '+' changes ∧
      (generateCommitMessage changes type).stats.removedLines =
        specLineCountAll '-' changes := by
  have h : ∀ m : Char, isLineTerminator m = false →
      totalLineCount m changes = specLineCountAll m changes := by
    intro m hm
    have hf : (fun change : FileChange => regexCountLineStart m change.diff) =
        fun change =>
          ((jsLinesOf change.diff).filter (fun l => l.head? == some m)).length :=
      funext fun change => regexCountLineStart_eq m hm change.diff
    rw [totalLineCount, specLineCountAll, hf]
  exact ⟨rfl, h '+' (by decide), h '-' (by decide)⟩

/-- Claim C2: the category-derivation step returns a supplied hint
unchanged, and otherwise evaluates the four predicates feat, fix, docs,
test in fixed priority order, returning the first match and `chore` when
none match; in particular the two-file scenario
`["a.test.ts","b.ts"]` with a `"fix"` substring in `b.ts`'s diff and no
feature markers classifies as `fix` despite the test-matching path. -/
theorem c2_classify_matches_reference :
    (∀ (changes : List FileChange) (hint : Option CommitType),
        suggestedTypeOf changes hint = classifySpec changes hint) ∧
      suggestedTypeOf [⟨"a.test.ts", "old code"⟩, ⟨"b.ts", "fix typo"⟩] none =
        .fix := by
  constructor
  · intro changes hint
    cases hint <;> rfl
  · decide

/-- Claim C3, as stated, is false: the code's feat predicate checks
`diff.includes("+ ")` and then looks for the keywords anywhere in the whole
diff text, not on an added line.  For the ChangeSet
`[{file:"a.ts", diff:"+ y\n-function old"}]` the keyword occurs only on a
removed line, yet the code classifies `feat`, while the claimed predicate
(keyword on an added line) does not hold. -/
theorem c3_feat_counterexample :
    suggestedTypeOf [⟨"a.ts", "+ y\n-function old"⟩] none = .feat ∧
      specFeat [⟨"a.ts", "+ y\n-function old"⟩] = false :=
  ⟨by decide, by decide⟩

/-- Claim C3 (amended): for every ChangeSet with no hint, the classifier
returns `feat` if and only if at least one diff contains the two-character
substring `"+ "` anywhere AND contains the keyword `function`, `class`, or
`export` anywhere in its text — the keyword need not occur on an added
line. -/
theorem c3_feat_amended (changes : List FileChange) :
    suggestedTypeOf changes none = .feat ↔
      ∃ change ∈ changes, includesStr change.diff "+ " = true ∧
        (includesStr change.diff "function" = true ∨
          includesStr change.diff "class" = true ∨
          includesStr change.diff "export" = true) := by
  have h : hasNewFeatures changes = true ↔
      ∃ change ∈ changes, includesStr change.diff "+ " = true ∧
        (includesStr change.diff "function" = true ∨
          includesStr change.diff "class" = true ∨
          includesStr change.diff "export" = true) := by
    simp [hasNewFeatures, List.any_eq_true, Bool.and_eq_true, Bool.or_eq_true,
      or_assoc]
  constructor
  · intro hfeat
    by_cases hnf : hasNewFeatures changes = true
    · exact h.mp hnf
    · exfalso
      simp only [suggestedTypeOf, hnf, if_false, Bool.false_eq_true] at hfeat
      split at hfeat
      · exact CommitType.noConfusion hfeat
      · split at hfeat
        · exact CommitType.noConfusion hfeat
        · split at hfeat
          · exact CommitType.noConfusion hfeat
          · exact CommitType.noConfusion hfeat
  · intro hex
    simp [suggestedTypeOf, h.mpr hex]

/-- Claim C4: under the ChangeSet invariant that a path appears at most
once, the emitted scope is the base name (up to the first period of the
final path segment) for exactly one file, `multiple` for more than three
files, `files` when more than one distinct file name exists, and empty
otherwise — in which case the message header carries no parenthetical
segment. -/
theorem c4_scope_spec (changes : List FileChange) (type : Option CommitType)
    (h : (changes.map (fun change => change.file)).Nodup) :
    scopeOf changes = specScopeOf changes ∧
      (scopeOf changes = "" → headerOf changes type =
        typeName (suggestedTypeOf changes type) ++ ": " ++
          descriptionFor (suggestedTypeOf changes type)) := by
  constructor
  · by_cases h1 : changes.length = 1
    · simp only [scopeOf, specScopeOf, h1, if_true]
      exact congrArg String.mk (headD_splitOnPred _ _)
    · by_cases h3 : changes.length > 3
      · simp [scopeOf, specScopeOf, h1, h3]
      · cases changes with
        | nil => decide
        | cons a tail =>
          cases tail with
          | nil => simp at h1
          | cons b rest =>
            have hmem : (',' : Char) ∈
                (fileNamesOf (a :: b :: rest)).data := by
              show (',' : Char) ∈ a.file.data ++ ", ".data ++
                jsJoin ", ".data (b.file.data :: rest.map
                  (fun change => change.file.data))
              exact List.mem_append.mpr
                (Or.inl (List.mem_append.mpr (Or.inr (by decide))))
            have hsplit := one_lt_length_splitOnPred (fun c => c = ',') _ ','
              hmem (by decide)
            have hd : 1 < (a.file :: b.file :: rest.map
                (fun change => change.file)).dedup.length := by
              have hdd := List.Nodup.dedup h
              simp only [List.map_cons] at hdd
              rw [hdd]
              simp
            have h3' : ¬(3 < rest.length + 1 + 1) := by simpa using h3
            simp [scopeOf, specScopeOf, h1, h3', hsplit, hd]
  · intro h0
    simp [headerOf, scopeTextOf, h0, String.append_empty]

/-- Witness for C4 at a concrete two-file ChangeSet with distinct paths. -/
theorem c4_scope_spec_witness :
    scopeOf [⟨"a.ts", "x"⟩, ⟨"b.md", "y"⟩] =
      specScopeOf [⟨"a.ts", "x"⟩, ⟨"b.md", "y"⟩] :=
  (c4_scope_spec [⟨"a.ts", "x"⟩, ⟨"b.md", "y"⟩] none (by decide)).1

/-- Claim C8: `generateCommitMessage` is a total function (it is defined
for every ChangeSet), and on the empty ChangeSet with no hint it produces
the header `chore: update code` with no scope segment, stats of 0 files
changed, 0 added and 0 removed lines, and an empty Files bullet. -/
theorem c8_empty_changeset :
    generateCommitMessage [] none =
      { message := "chore: update code\n\n- Modified 0 file\n- Added 0 lines, removed 0 lines\n- Files: "
        type := .chore
        stats := { addedLines := 0, removedLines := 0, filesChanged := 0 } } :=
  by decide

/-- Claim C9: a single changed file whose final path segment begins with a
period yields an empty scope — the substring before the first period is
empty — so the message header is `<category>: <description>` with no
parenthetical segment. -/
theorem c9_dotfile_scope (f d : String) (type : Option CommitType)
    (h : ((splitOnPred (fun c => c = '/') f.data).getLastD []).head? =
      some '.') :
    scopeOf [⟨f, d⟩] = "" ∧
      headerOf [⟨f, d⟩] type =
        typeName (suggestedTypeOf [⟨f, d⟩] type) ++ ": " ++
          descriptionFor (suggestedTypeOf [⟨f, d⟩] type) := by
  have hscope : scopeOf [⟨f, d⟩] = "" := by
    obtain ⟨rest, hseg⟩ : ∃ rest,
        (splitOnPred (fun c => c = '/') f.data).getLastD [] = '.' :: rest := by
      cases hs : (splitOnPred (fun c => c = '/') f.data).getLastD [] with
      | nil => rw [hs] at h; cases h
      | cons a tl =>
        rw [hs] at h
        simp only [List.head?_cons, Option.some.injEq] at h
        exact ⟨tl, by rw [h]⟩
    show (⟨(splitOnPred (fun c => c = '.')
        ((splitOnPred (fun c => c = '/') f.data).getLastD [])).headD []⟩ :
          String) = ""
    rw [hseg]
    simp [splitOnPred]
  refine ⟨hscope, ?_⟩
  simp [headerOf, scopeTextOf, hscope, String.append_empty]

/-- Witness for C9 at the concrete file `.gitignore`. -/
theorem c9_dotfile_scope_witness : scopeOf [⟨".gitignore", ""⟩] = "" :=
  (c9_dotfile_scope ".gitignore" "" none (by decide)).1

/-- Claim C5, as stated, is false at content `"é"` with title `"T"`:
stripping the metadata header and title heading from the written file
yields `"é\n"`, not the original content `"é"` (the writer appends a
newline), and the reported size is the UTF-16 code-unit count of the full
text (70), not its byte length (71, since `é` occupies two UTF-8 bytes). -/
theorem c5_roundtrip_counterexample :
    strippedBody "2025-01-01T00:00:00.000Z" (some "T")
        (fullContentOf "2025-01-01T00:00:00.000Z" (some "T") "é") ≠ "é" ∧
      (writeMarkdownReview [] "review.md" "é" (some "T")
          "2025-01-01T00:00:00.000Z" none).2.size ≠
        some ((fullContentOf "2025-01-01T00:00:00.000Z" (some "T")
          "é").utf8ByteSize) :=
  ⟨by decide, by decide⟩

/-- Claim C5 (amended): for every content string and title, writing with
`writeMarkdownReview` and reading the file back yields text whose body,
after stripping the metadata header and the title heading, equals the
original content followed by the single newline the writer appends; and the
reported `size` equals the UTF-16 code-unit count (JavaScript string
length) of the full written text. -/
theorem c5_roundtrip_amended (fs : List (String × String))
    (filePath content : String) (title : Option String) (timestamp : String) :
    ((writeMarkdownReview fs filePath content title timestamp none).1.lookup
        filePath = some (fullContentOf timestamp title content)) ∧
      strippedBody timestamp title (fullContentOf timestamp title content) =
        content ++ "\n" ∧
      (writeMarkdownReview fs filePath content title timestamp none).2.size =
        some (jsLength (fullContentOf timestamp title content)) := by
  refine ⟨?_, ?_, rfl⟩
  · simp [writeMarkdownReview, List.lookup]
  · have hsplit : fullContentOf timestamp title content =
        headerAndTitleBlock timestamp title ++ (content ++ "\n") := by
      cases title <;>
        simp [fullContentOf, markdownContentOf, headerAndTitleBlock,
          String.append_assoc, String.append_empty]
    rw [strippedBody, hsplit, String.data_append, List.drop_left]

/-- Claim C6: `writeMarkdownReview` never raises past its own boundary —
every filesystem error is caught and turned into
`{ success := false, filePath, error }` with a human-readable message
(the thrown `Error`'s message, or `"Unknown error occurred"` for a
non-`Error` throw), and on success it returns
`{ success := true, filePath, size }`. -/
theorem c6_write_error_contained (fs : List (String × String))
    (filePath content : String) (title : Option String) (timestamp : String) :
    (∀ e : Option String,
        (writeMarkdownReview fs filePath content title timestamp (some e)).2 =
          { success := false, filePath := filePath
            error := some (e.getD "Unknown error occurred") }) ∧
      (writeMarkdownReview fs filePath content title timestamp none).2 =
        { success := true, filePath := filePath
          size := some (jsLength (fullContentOf timestamp title content))
          message := some ("Successfully wrote " ++
            toString (jsLength (fullContentOf timestamp title content)) ++
            " characters to " ++ filePath) } :=
  ⟨fun _ => rfl, rfl⟩

/-- Claim C7: `getGitHistory` never raises — on any VCS error it returns an
empty commit list paired with an error description (the thrown `Error`'s
message, or `"Failed to get git history"` otherwise), and on success it
returns the mapped commits with no error field. -/
theorem c7_history_error_contained :
    (∀ e : Option String,
        (getGitHistory (.error e)).commits = [] ∧
          (getGitHistory (.error e)).error =
            some (e.getD "Failed to get git history")) ∧
      (∀ commits : List RawCommit,
        (getGitHistory (.ok commits)).error = none ∧
          (getGitHistory (.ok commits)).commits = commits.map (fun c =>
            { hash := c.hash, date := c.date, message := c.message
              author := c.author_name, email := c.author_email })) :=
  ⟨fun _ => ⟨rfl, rfl⟩, fun _ => ⟨rfl, rfl⟩⟩

/-- Claim C10: the written file content is exactly the metadata header
block, the optional title heading, the caller-supplied content, and a
terminating newline — the file always ends with a newline even when the
content does not — and the returned `size` counts that appended newline. -/
theorem c10_trailing_newline (fs : List (String × String))
    (filePath content : String) (title : Option String) (timestamp : String) :
    ((writeMarkdownReview fs filePath content title timestamp none).1.lookup
        filePath = some (fullContentOf timestamp title content)) ∧
      fullContentOf timestamp title content =
        ("---\ngenerated: " ++ timestamp ++ "\ntype: code-review\n---\n\n" ++
          markdownContentOf title content) ++ "\n" ∧
      (writeMarkdownReview fs filePath content title timestamp none).2.size =
        some (jsLength ("---\ngenerated: " ++ timestamp ++
          "\ntype: code-review\n---\n\n" ++
            markdownContentOf title content) + 1) := by
  refine ⟨?_, rfl, ?_⟩
  · simp [writeMarkdownReview, List.lookup]
  · show some (jsLength (fullContentOf timestamp title content)) = _
    rw [show fullContentOf timestamp title content =
      ("---\ngenerated: " ++ timestamp ++ "\ntype: code-review\n---\n\n" ++
        markdownContentOf title content) ++ "\n" from rfl, jsLength_append]
    simp [show jsLength "\n" = 1 from by decide]

end CodeReviewAgent
